import Mathlib

/-!
Shallow embedding of the AuthenticatorLargeBlobs command handler of
src/ctap/large_blobs.rs (OpenSK), together with spec-derived models of the
external collaborators it consumes (persistent store, PIN protocol, hasher),
and theorems settling the specification claims about it.

Bytes are modelled as natural numbers, byte strings as lists of naturals.
The SHA-256 primitive is an external collaborator; every definition below is
parametric in the hash function, and every theorem quantifies over it.
-/

set_option maxRecDepth 10000

/-- Status codes returned by the large-blobs command handler.  The CTAP names
mirror src/ctap/large_blobs.rs; the last two codes stand for the collaborator
errors the spec describes (a permission failure reported by the auth-token
verifier, and an opaque storage-layer error on commit). -/
inductive Ctap2StatusCode where
  | CTAP1_ERR_INVALID_LENGTH
  | CTAP1_ERR_INVALID_SEQ
  | CTAP1_ERR_INVALID_PARAMETER
  | CTAP2_ERR_MISSING_PARAMETER
  | CTAP2_ERR_PUAT_REQUIRED
  | CTAP2_ERR_PIN_AUTH_INVALID
  | CTAP2_ERR_INTEGRITY_FAILURE
  | permissionDenied
  | storageError
  deriving DecidableEq, Repr

/-- Response payload: src/ctap/large_blobs.rs returns
ResponseData::AuthenticatorLargeBlobs, carrying the read-back config bytes for
a get and nothing for a set. -/
inductive ResponseData where
  | AuthenticatorLargeBlobs : Option (List Nat) → ResponseData
  deriving DecidableEq, Repr

/-- Session state of the LargeBlobs struct (src/ctap/large_blobs.rs, lines
34-38): the accumulation buffer, the declared total length, and the offset the
next fragment must start at. -/
structure LargeBlobs where
  buffer : List Nat
  expected_length : Nat
  expected_next_offset : Nat
  deriving DecidableEq, Repr

/-- LargeBlobs::new (src/ctap/large_blobs.rs, lines 42-48): the idle session. -/
def LargeBlobs.new : LargeBlobs :=
  { buffer := [], expected_length := 0, expected_next_offset := 0 }

/-- Modelled from the spec: the PersistentStore collaborator (BlobStore of
spec section 6) is not part of src/.  It holds the committed large blob
array, knows whether a PIN/UV factor is enrolled (pin_hash().is_some()), and
its commit either succeeds or reports an opaque storage error, which the
commitOk flag selects. -/
structure PersistentStore where
  largeBlobArray : List Nat
  pinEnrolled : Bool
  commitOk : Bool
  deriving DecidableEq, Repr

/-- Modelled from the spec: BlobStore.read (spec section 6) returns up to
length bytes of the committed array starting at offset, short or empty at or
beyond the end of the array. -/
def PersistentStore.get_large_blob_array (store : PersistentStore)
    (len offset : Nat) : List Nat :=
  (store.largeBlobArray.drop offset).take len

/-- Modelled from the spec: the PinProtocolV1 collaborator (AuthTokenVerifier
of spec section 6) is not part of src/.  It reports whether the caller holds
the LargeBlobWrite permission and verifies an auth token against a message. -/
structure PinProtocolV1 where
  hasLargeBlobWritePermission : Bool
  verify_pin_auth_token : List Nat → List Nat → Bool

/-- Command parameters (AuthenticatorLargeBlobsParameters of
src/ctap/command.rs, consumed at src/ctap/large_blobs.rs lines 57-64). -/
structure AuthenticatorLargeBlobsParameters where
  get : Option Nat
  set : Option (List Nat)
  offset : Nat
  length : Option Nat
  pin_uv_auth_param : Option (List Nat)
  pin_uv_auth_protocol : Option Nat
  deriving DecidableEq, Repr

instance : DecidableEq (Except Ctap2StatusCode ResponseData)
  | Except.ok x, Except.ok y =>
    match decEq x y with
    | isTrue h => isTrue (congrArg Except.ok h)
    | isFalse h => isFalse fun hc => h (Except.ok.inj hc)
  | Except.ok _, Except.error _ => isFalse fun hc => Except.noConfusion hc
  | Except.error _, Except.ok _ => isFalse fun hc => Except.noConfusion hc
  | Except.error x, Except.error y =>
    match decEq x y with
    | isTrue h => isTrue (congrArg Except.error h)
    | isFalse h => isFalse fun hc => h (Except.error.inj hc)

/-- Outcome of one process_command call: the returned Result plus the session
state and store state after the call. -/
structure CallResult where
  result : Except Ctap2StatusCode ResponseData
  lb : LargeBlobs
  store : PersistentStore
  deriving DecidableEq, Repr

/-- MAX_MSG_SIZE (src/ctap/large_blobs.rs line 30). -/
def MAX_MSG_SIZE : Nat := 1024

/-- TRUNCATED_HASH_LEN (src/ctap/large_blobs.rs line 32). -/
def TRUNCATED_HASH_LEN : Nat := 16

/-- MAX_FRAGMENT_LENGTH (src/ctap/large_blobs.rs line 66). -/
def MAX_FRAGMENT_LENGTH : Nat := MAX_MSG_SIZE - 64

/-- Modelled from the spec: check_pin_uv_auth_protocol (imported at
src/ctap/large_blobs.rs line 15 from the surrounding ctap module, not part of
src/): the declared protocol version must be one the authenticator supports
(version 1), otherwise an unsupported-protocol error is returned, which the
spec (section 4.2 step 4) identifies with InvalidParameter; an undeclared
version is a missing parameter. -/
def check_pin_uv_auth_protocol (protocolOpt : Option Nat) :
    Except Ctap2StatusCode Unit :=
  match protocolOpt with
  | some v => if v = 1 then .ok () else .error .CTAP1_ERR_INVALID_PARAMETER
  | none => .error .CTAP2_ERR_MISSING_PARAMETER

/-- The four little-endian bytes of the offset written by
LittleEndian::write_u32 (src/ctap/large_blobs.rs lines 100-101); the usize
offset is truncated to 32 bits by the cast. -/
def leBytes4 (o : Nat) : List Nat :=
  [o % 256, o / 256 % 256, o / 65536 % 256, o / 16777216 % 256]

/-- The message the auth token is verified against
(src/ctap/large_blobs.rs lines 98-103): 32 bytes 0xFF, the tag [0x0C, 0x00],
the 4-byte little-endian offset, then the full hash digest of the fragment. -/
def largeBlobMessage (hash : List Nat → List Nat) (offset : Nat)
    (fragment : List Nat) : List Nat :=
  List.replicate 32 0xFF ++ [0x0C, 0x00] ++ leBytes4 offset ++ hash fragment

/-- Session (re)initialization at offset 0 (src/ctap/large_blobs.rs lines
82-87): a first fragment must carry the declared total length, which becomes
expected_length while expected_next_offset is reset to 0; at a nonzero offset
the session is left untouched. -/
def sessionInit (lb : LargeBlobs) (offset : Nat) (length : Option Nat) :
    Except Ctap2StatusCode LargeBlobs :=
  if offset = 0 then
    match length with
    | none => .error .CTAP1_ERR_INVALID_PARAMETER
    | some l =>
        .ok { lb with expected_length := l, expected_next_offset := 0 }
  else .ok lb

/-- The authentication gate (src/ctap/large_blobs.rs lines 91-107): with a
PIN factor enrolled, the auth param must be present, the protocol supported,
the LargeBlobWrite permission held, and the token must verify against the
canonical message; with no factor enrolled the gate is skipped. -/
def authCheck (hash : List Nat → List Nat) (pin : PinProtocolV1)
    (store : PersistentStore) (tokenOpt : Option (List Nat))
    (protocolOpt : Option Nat) (offset : Nat) (fragment : List Nat) :
    Except Ctap2StatusCode Unit :=
  if store.pinEnrolled then
    match tokenOpt with
    | none => .error .CTAP2_ERR_PUAT_REQUIRED
    | some token =>
      match check_pin_uv_auth_protocol protocolOpt with
      | .error e => .error e
      | .ok _ =>
        if pin.hasLargeBlobWritePermission then
          if pin.verify_pin_auth_token (largeBlobMessage hash offset fragment)
              token then .ok ()
          else .error .CTAP2_ERR_PIN_AUTH_INVALID
        else .error .permissionDenied
  else .ok ()

/-- The finalize step (src/ctap/large_blobs.rs lines 116-129), applied to the
state holding the appended buffer.  When the buffer reaches the declared
length, the length fields are reset first; the subtraction
buffer.len() - TRUNCATED_HASH_LEN then panics when the buffer is shorter than
the tag (modelled as the none outcome); a checksum mismatch discards the
buffer with IntegrityFailure; otherwise the buffer is committed (the commit
itself may fail with a storage error, in which case the buffer is not
cleared, mirroring the early return of the question-mark operator). -/
def finalizeAndCommit (hash : List Nat → List Nat) (store : PersistentStore)
    (lb2 : LargeBlobs) : Option CallResult :=
  if lb2.expected_next_offset = lb2.expected_length then
    if lb2.buffer.length < TRUNCATED_HASH_LEN then none
    else
      let idx := lb2.buffer.length - TRUNCATED_HASH_LEN
      if (hash (lb2.buffer.take idx)).take TRUNCATED_HASH_LEN ≠
          lb2.buffer.drop idx then
        some { result := .error .CTAP2_ERR_INTEGRITY_FAILURE,
               lb := { buffer := [], expected_length := 0,
                       expected_next_offset := 0 },
               store := store }
      else if store.commitOk then
        some { result := .ok (.AuthenticatorLargeBlobs none),
               lb := { buffer := [], expected_length := 0,
                       expected_next_offset := 0 },
               store := { store with largeBlobArray := lb2.buffer } }
      else
        some { result := .error .storageError,
               lb := { lb2 with expected_length := 0, expected_next_offset := 0 },
               store := store }
  else
    some { result := .ok (.AuthenticatorLargeBlobs none), lb := lb2,
           store := store }

/-- The set branch (src/ctap/large_blobs.rs lines 78-130): fragment length
bound, session init, sequencing check, authentication gate, total-length
bound, accumulation, and the conditional finalize. -/
def processSet (hash : List Nat → List Nat) (pin : PinProtocolV1)
    (store : PersistentStore) (lb : LargeBlobs) (fragment : List Nat)
    (offset : Nat) (length : Option Nat) (tokenOpt : Option (List Nat))
    (protocolOpt : Option Nat) : Option CallResult :=
  if fragment.length > MAX_FRAGMENT_LENGTH then
    some { result := .error .CTAP1_ERR_INVALID_LENGTH, lb := lb,
           store := store }
  else
    match sessionInit lb offset length with
    | .error e => some { result := .error e, lb := lb, store := store }
    | .ok lb1 =>
      if offset ≠ lb1.expected_next_offset then
        some { result := .error .CTAP1_ERR_INVALID_SEQ, lb := lb1,
               store := store }
      else
        match authCheck hash pin store tokenOpt protocolOpt offset fragment with
        | .error e => some { result := .error e, lb := lb1, store := store }
        | .ok _ =>
          if offset + fragment.length > lb1.expected_length then
            some { result := .error .CTAP1_ERR_INVALID_PARAMETER, lb := lb1,
                   store := store }
          else
            let buf1 := (if offset = 0 then [] else lb1.buffer) ++ fragment
            finalizeAndCommit hash store
              { lb1 with buffer := buf1, expected_next_offset := buf1.length }

/-- LargeBlobs::process_command (src/ctap/large_blobs.rs lines 51-135).  The
none outcome models the panic of the finalize step's underflowing index
computation; every non-panicking path yields the Result together with the
session and store states after the call. -/
def processCommand (hash : List Nat → List Nat) (pin : PinProtocolV1)
    (store : PersistentStore) (lb : LargeBlobs)
    (p : AuthenticatorLargeBlobsParameters) : Option CallResult :=
  match p.get with
  | some g =>
    if g > MAX_FRAGMENT_LENGTH then
      some { result := .error .CTAP1_ERR_INVALID_LENGTH, lb := lb,
             store := store }
    else
      some { result := .ok (.AuthenticatorLargeBlobs
               (some (store.get_large_blob_array g p.offset))),
             lb := lb, store := store }
  | none =>
    match p.set with
    | some fragment =>
        processSet hash pin store lb fragment p.offset p.length
          p.pin_uv_auth_param p.pin_uv_auth_protocol
    | none =>
        some { result := .error .CTAP1_ERR_INVALID_PARAMETER, lb := lb,
               store := store }

/-- Runs a list of commands in sequence, collecting each call's Result;
none when some call panics. -/
def runSets (hash : List Nat → List Nat) (pin : PinProtocolV1) :
    List AuthenticatorLargeBlobsParameters → PersistentStore → LargeBlobs →
    Option (List (Except Ctap2StatusCode ResponseData) ×
            PersistentStore × LargeBlobs)
  | [], store, lb => some ([], store, lb)
  | p :: ps, store, lb =>
    match processCommand hash pin store lb p with
    | none => none
    | some c =>
      match runSets hash pin ps c.store c.lb with
      | none => none
      | some (rs, store2, lb2) => some (c.result :: rs, store2, lb2)

/-- The client-side fragment schedule of spec section 8: each fragment is
sent at the offset where it belongs, and the declared total length
accompanies exactly the call at offset 0. -/
def fragmentCalls (total : Nat) : Nat → List (List Nat) →
    List AuthenticatorLargeBlobsParameters
  | _, [] => []
  | off, f :: fs =>
    { get := none, set := some f, offset := off,
      length := if off = 0 then some total else none,
      pin_uv_auth_param := none, pin_uv_auth_protocol := none } ::
      fragmentCalls total (off + f.length) fs

/-- Reads the committed blob back with consecutive get calls of the given
sizes, concatenating the returned fragments. -/
def readBack (hash : List Nat → List Nat) (pin : PinProtocolV1)
    (store : PersistentStore) : Nat → List Nat → Option (List Nat)
  | _, [] => some []
  | off, n :: ns =>
    match processCommand hash pin store LargeBlobs.new
        { get := some n, set := none, offset := off, length := none,
          pin_uv_auth_param := none, pin_uv_auth_protocol := none } with
    | some { result := .ok (.AuthenticatorLargeBlobs (some cfg)), .. } =>
      match readBack hash pin store (off + n) ns with
      | some rest => some (cfg ++ rest)
      | none => none
    | _ => none

/-- True when the call returned an error (as opposed to panicking or
succeeding). -/
def outcomeIsError : Option CallResult → Bool
  | some { result := .error _, .. } => true
  | _ => false

/-- The error code of a call that returned one. -/
def outcomeError : Option CallResult → Option Ctap2StatusCode
  | some { result := .error e, .. } => some e
  | _ => none

/-- The session state after a call that did not panic. -/
def outcomeSession : Option CallResult → Option LargeBlobs
  | some c => some c.lb
  | none => none

/-- The store state after a call that did not panic. -/
def outcomeStore : Option CallResult → Option PersistentStore
  | some c => some c.store
  | none => none

/-- A concrete hash collaborator used by concrete evaluations: a fixed
32-byte digest, enough to realize both matching and mismatching checksums. -/
def hashC : List Nat → List Nat := fun _ => List.replicate 32 5

/-- A concrete PIN-protocol collaborator used by concrete evaluations. -/
def pinC : PinProtocolV1 :=
  { hasLargeBlobWritePermission := true,
    verify_pin_auth_token := fun _ _ => false }

/-- A concrete store with no PIN factor enrolled. -/
def storeC : PersistentStore :=
  { largeBlobArray := [1, 2, 3], pinEnrolled := false, commitOk := true }

/-- A concrete store with a PIN factor enrolled. -/
def storeP : PersistentStore :=
  { largeBlobArray := [], pinEnrolled := true, commitOk := true }

/-- A concrete mid-session state: 10 bytes accumulated out of 20 declared. -/
def lbMid : LargeBlobs :=
  { buffer := List.replicate 10 1, expected_length := 20,
    expected_next_offset := 10 }

/-- A concrete set call used by concrete evaluations: 10 bytes at offset 10
with an auth token that pinC rejects. -/
def pC3 : AuthenticatorLargeBlobsParameters :=
  { get := none, set := some (List.replicate 10 3), offset := 10,
    length := none, pin_uv_auth_param := some [1, 2],
    pin_uv_auth_protocol := some 1 }

/-- A concrete oversized, unauthenticated set call: 5 bytes at offset 0
against a declared total length of 3, with no auth token. -/
def pC7 : AuthenticatorLargeBlobsParameters :=
  { get := none, set := some (List.replicate 5 1), offset := 0,
    length := some 3, pin_uv_auth_param := none,
    pin_uv_auth_protocol := none }

/-- A concrete session-opening set call: 10 bytes at offset 0 declaring a
total length of 20. -/
def pC5a : AuthenticatorLargeBlobsParameters :=
  { get := none, set := some (List.replicate 10 1), offset := 0,
    length := some 20, pin_uv_auth_param := none,
    pin_uv_auth_protocol := none }

/-- A concrete session-restarting set call whose fragment (15 bytes)
exceeds its own declared total length (10), so the bound check fails after
the session reset. -/
def pC5b : AuthenticatorLargeBlobsParameters :=
  { get := none, set := some (List.replicate 15 2), offset := 0,
    length := some 10, pin_uv_auth_param := none,
    pin_uv_auth_protocol := none }

/-- The session state produced by pC5a then pC5b from idle: the stale
10-byte buffer of the first session with expected_next_offset reset to 0. -/
def lbC5 : LargeBlobs :=
  { buffer := List.replicate 10 1, expected_length := 10,
    expected_next_offset := 0 }

/-- A concrete 20-byte blob whose trailing 16 bytes are the checksum the
hashC collaborator assigns to its first 4 bytes. -/
def blobC : List Nat := List.replicate 4 9 ++ List.replicate 16 5

/-- A concrete two-fragment split of blobC. -/
def fragsC : List (List Nat) := [blobC.take 10, blobC.drop 10]

/-!  Shared step lemmas about the control flow of process_command. -/

theorem processCommand_set_eq (hash : List Nat → List Nat)
    (pin : PinProtocolV1) (store : PersistentStore) (lb : LargeBlobs)
    (p : AuthenticatorLargeBlobsParameters) (fragment : List Nat)
    (hget : p.get = none) (hset : p.set = some fragment) :
    processCommand hash pin store lb p =
      processSet hash pin store lb fragment p.offset p.length
        p.pin_uv_auth_param p.pin_uv_auth_protocol := by
  unfold processCommand
  rw [hget, hset]

theorem sessionInit_zero (lb : LargeBlobs) (l : Nat) :
    sessionInit lb 0 (some l) =
      .ok { lb with expected_length := l, expected_next_offset := 0 } := by
  simp [sessionInit]

theorem sessionInit_nonzero (lb : LargeBlobs) (off : Nat) (len : Option Nat)
    (h : off ≠ 0) : sessionInit lb off len = .ok lb := by
  simp [sessionInit, h]

theorem processSet_checks_passed (hash : List Nat → List Nat)
    (pin : PinProtocolV1) (store : PersistentStore) (lb lb1 : LargeBlobs)
    (fragment : List Nat) (off : Nat) (len : Option Nat)
    (tokenOpt : Option (List Nat)) (protocolOpt : Option Nat)
    (hlen : fragment.length ≤ MAX_FRAGMENT_LENGTH)
    (hinit : sessionInit lb off len = .ok lb1)
    (hseq : off = lb1.expected_next_offset)
    (hauth : authCheck hash pin store tokenOpt protocolOpt off fragment =
      .ok ())
    (hbound : off + fragment.length ≤ lb1.expected_length) :
    processSet hash pin store lb fragment off len tokenOpt protocolOpt =
      finalizeAndCommit hash store
        { lb1 with
            buffer := (if off = 0 then [] else lb1.buffer) ++ fragment,
            expected_next_offset :=
              ((if off = 0 then [] else lb1.buffer) ++ fragment).length } := by
  unfold processSet
  rw [if_neg (by omega), hinit]
  dsimp only
  rw [if_neg (by simp [hseq]), hauth]
  dsimp only
  rw [if_neg (by omega)]

theorem processSet_auth_error (hash : List Nat → List Nat)
    (pin : PinProtocolV1) (store : PersistentStore) (lb lb1 : LargeBlobs)
    (fragment : List Nat) (off : Nat) (len : Option Nat)
    (tokenOpt : Option (List Nat)) (protocolOpt : Option Nat)
    (e : Ctap2StatusCode)
    (hlen : fragment.length ≤ MAX_FRAGMENT_LENGTH)
    (hinit : sessionInit lb off len = .ok lb1)
    (hseq : off = lb1.expected_next_offset)
    (hauth : authCheck hash pin store tokenOpt protocolOpt off fragment =
      .error e) :
    processSet hash pin store lb fragment off len tokenOpt protocolOpt =
      some { result := .error e, lb := lb1, store := store } := by
  unfold processSet
  rw [if_neg (by omega), hinit]
  dsimp only
  rw [if_neg (by simp [hseq]), hauth]

theorem finalize_nonfinal (hash : List Nat → List Nat)
    (store : PersistentStore) (lb2 : LargeBlobs)
    (h : lb2.expected_next_offset ≠ lb2.expected_length) :
    finalizeAndCommit hash store lb2 =
      some { result := .ok (.AuthenticatorLargeBlobs none), lb := lb2,
             store := store } := by
  unfold finalizeAndCommit
  rw [if_neg h]

theorem finalize_mismatch (hash : List Nat → List Nat)
    (store : PersistentStore) (lb2 : LargeBlobs)
    (hfin : lb2.expected_next_offset = lb2.expected_length)
    (h16 : TRUNCATED_HASH_LEN ≤ lb2.buffer.length)
    (hmis : (hash (lb2.buffer.take (lb2.buffer.length - TRUNCATED_HASH_LEN))).take
        TRUNCATED_HASH_LEN ≠
        lb2.buffer.drop (lb2.buffer.length - TRUNCATED_HASH_LEN)) :
    finalizeAndCommit hash store lb2 =
      some { result := .error .CTAP2_ERR_INTEGRITY_FAILURE,
             lb := { buffer := [], expected_length := 0,
                     expected_next_offset := 0 },
             store := store } := by
  unfold finalizeAndCommit
  rw [if_pos hfin, if_neg (by omega), if_pos hmis]

theorem finalize_commit (hash : List Nat → List Nat)
    (store : PersistentStore) (lb2 : LargeBlobs)
    (hfin : lb2.expected_next_offset = lb2.expected_length)
    (h16 : TRUNCATED_HASH_LEN ≤ lb2.buffer.length)
    (hchk : (hash (lb2.buffer.take (lb2.buffer.length - TRUNCATED_HASH_LEN))).take
        TRUNCATED_HASH_LEN =
        lb2.buffer.drop (lb2.buffer.length - TRUNCATED_HASH_LEN))
    (hcom : store.commitOk = true) :
    finalizeAndCommit hash store lb2 =
      some { result := .ok (.AuthenticatorLargeBlobs none),
             lb := { buffer := [], expected_length := 0,
                     expected_next_offset := 0 },
             store := { store with largeBlobArray := lb2.buffer } } := by
  unfold finalizeAndCommit
  rw [if_pos hfin, if_neg (by omega), if_neg (by simp [hchk]), if_pos hcom]

theorem sessionInit_ok (lb : LargeBlobs) (off : Nat) (lenOpt : Option Nat)
    (L : Nat)
    (hL : (if off = 0 then lenOpt else some lb.expected_length) = some L) :
    sessionInit lb off lenOpt =
      .ok { lb with expected_length := L,
                    expected_next_offset :=
                      if off = 0 then 0 else lb.expected_next_offset } := by
  by_cases hz : off = 0
  · rw [if_pos hz] at hL
    rw [hz, hL]
    simp [sessionInit]
  · rw [if_neg hz] at hL
    rw [sessionInit_nonzero lb off lenOpt hz, if_neg hz]
    rw [← Option.some.inj hL]

theorem finalize_ne_none (hash : List Nat → List Nat)
    (store : PersistentStore) (lb2 : LargeBlobs)
    (h : TRUNCATED_HASH_LEN ≤ lb2.expected_length ∨
      lb2.expected_next_offset ≠ lb2.expected_length)
    (hbuf : lb2.buffer.length = lb2.expected_next_offset) :
    finalizeAndCommit hash store lb2 ≠ none := by
  unfold finalizeAndCommit
  split
  · next hfin =>
    have hnl : ¬lb2.buffer.length < TRUNCATED_HASH_LEN := by
      rcases h with h | h
      · omega
      · exact absurd hfin h
    rw [if_neg hnl]
    dsimp only
    repeat' split
    all_goals simp
  · simp

/-- C9: every get call, at any requested length and offset, leaves the whole
call state untouched: the session state (buffer, expected_length,
expected_next_offset) and the store are returned exactly as they were, the
result being InvalidLength when the requested length exceeds the maximum
fragment length and the requested slice of the committed blob otherwise. -/
theorem claim_c9 (hash : List Nat → List Nat) (pin : PinProtocolV1)
    (store : PersistentStore) (lb : LargeBlobs)
    (p : AuthenticatorLargeBlobsParameters) (g : Nat)
    (hget : p.get = some g) :
    processCommand hash pin store lb p =
      some { result :=
               if g > MAX_FRAGMENT_LENGTH then .error .CTAP1_ERR_INVALID_LENGTH
               else .ok (.AuthenticatorLargeBlobs
                 (some (store.get_large_blob_array g p.offset))),
             lb := lb, store := store } := by
  unfold processCommand
  rw [hget]
  dsimp only
  by_cases hg : g > MAX_FRAGMENT_LENGTH
  · rw [if_pos hg, if_pos hg]
  · rw [if_neg hg, if_neg hg]

theorem claim_c9_witness :
    ({ get := some 2, set := none, offset := 1, length := none,
       pin_uv_auth_param := none, pin_uv_auth_protocol := none :
       AuthenticatorLargeBlobsParameters }).get = some 2 ∧
    processCommand hashC pinC storeC lbMid
      { get := some 2, set := none, offset := 1, length := none,
        pin_uv_auth_param := none, pin_uv_auth_protocol := none } =
      some { result :=
               if 2 > MAX_FRAGMENT_LENGTH then .error .CTAP1_ERR_INVALID_LENGTH
               else .ok (.AuthenticatorLargeBlobs
                 (some (storeC.get_large_blob_array 2 1))),
             lb := lbMid, store := storeC } :=
  ⟨rfl, claim_c9 hashC pinC storeC lbMid _ 2 rfl⟩

/-- C10: a call carrying both a get and a set request behaves exactly as if
only the get request had been supplied: the set branch is never examined and
the session state is returned unchanged. -/
theorem claim_c10 (hash : List Nat → List Nat) (pin : PinProtocolV1)
    (store : PersistentStore) (lb : LargeBlobs)
    (p : AuthenticatorLargeBlobsParameters) (g : Nat)
    (hget : p.get = some g) :
    processCommand hash pin store lb p =
      processCommand hash pin store lb { p with set := none } ∧
    outcomeSession (processCommand hash pin store lb p) = some lb := by
  unfold processCommand
  rw [hget]
  dsimp only
  refine ⟨rfl, ?_⟩
  by_cases hg : g > MAX_FRAGMENT_LENGTH
  · rw [if_pos hg]
    rfl
  · rw [if_neg hg]
    rfl

theorem claim_c10_witness :
    ({ get := some 2, set := some [7, 7], offset := 0, length := none,
       pin_uv_auth_param := none, pin_uv_auth_protocol := none :
       AuthenticatorLargeBlobsParameters }).get = some 2 ∧
    (processCommand hashC pinC storeC lbMid
        { get := some 2, set := some [7, 7], offset := 0, length := none,
          pin_uv_auth_param := none, pin_uv_auth_protocol := none } =
      processCommand hashC pinC storeC lbMid
        { get := some 2, set := none, offset := 0, length := none,
          pin_uv_auth_param := none, pin_uv_auth_protocol := none } ∧
    outcomeSession (processCommand hashC pinC storeC lbMid
        { get := some 2, set := some [7, 7], offset := 0, length := none,
          pin_uv_auth_param := none, pin_uv_auth_protocol := none }) =
      some lbMid) :=
  ⟨rfl, claim_c10 hashC pinC storeC lbMid _ 2 rfl⟩

/-- C4, counterexample: a set call whose offset (0) differs from the
session's expected_next_offset (10) does not fail with InvalidSequencing and
does not leave the accumulated buffer unchanged; it silently restarts the
session, succeeds, and replaces the buffer with the new fragment
(src/ctap/large_blobs.rs lines 82-87: an offset-0 fragment re-initializes the
session before the sequencing check). -/
theorem claim_c4_counterexample :
    ({ get := none, set := some (List.replicate 5 2), offset := 0,
       length := some 20, pin_uv_auth_param := none,
       pin_uv_auth_protocol := none :
       AuthenticatorLargeBlobsParameters }).offset ≠
        lbMid.expected_next_offset ∧
    processCommand hashC pinC storeC lbMid
      { get := none, set := some (List.replicate 5 2), offset := 0,
        length := some 20, pin_uv_auth_param := none,
        pin_uv_auth_protocol := none } =
      some { result := .ok (.AuthenticatorLargeBlobs none),
             lb := { buffer := List.replicate 5 2, expected_length := 20,
                     expected_next_offset := 5 },
             store := storeC } := by
  constructor
  · decide
  · decide

/-- C4, amended: a set call whose fragment is within the maximum fragment
length and whose offset is nonzero and differs from the session's
expected_next_offset fails with InvalidSequencing and leaves the whole call
state, in particular the accumulated buffer, unchanged.  (The amendment
excludes offset 0, where the source restarts the session instead of checking
sequencing, and oversized fragments, which fail earlier with
InvalidLength.) -/
theorem claim_c4 (hash : List Nat → List Nat) (pin : PinProtocolV1)
    (store : PersistentStore) (lb : LargeBlobs)
    (p : AuthenticatorLargeBlobsParameters) (fragment : List Nat)
    (hget : p.get = none) (hset : p.set = some fragment)
    (hlen : fragment.length ≤ MAX_FRAGMENT_LENGTH)
    (hoff : p.offset ≠ 0)
    (hseq : p.offset ≠ lb.expected_next_offset) :
    processCommand hash pin store lb p =
      some { result := .error .CTAP1_ERR_INVALID_SEQ, lb := lb,
             store := store } := by
  rw [processCommand_set_eq hash pin store lb p fragment hget hset]
  unfold processSet
  rw [if_neg (by omega), sessionInit_nonzero lb p.offset p.length hoff]
  dsimp only
  rw [if_pos hseq]

theorem claim_c4_witness :
    ({ get := none, set := some [9], offset := 4, length := none,
       pin_uv_auth_param := none, pin_uv_auth_protocol := none :
       AuthenticatorLargeBlobsParameters }).get = none ∧
    (4 : Nat) ≠ 0 ∧ (4 : Nat) ≠ lbMid.expected_next_offset ∧
    processCommand hashC pinC storeC lbMid
      { get := none, set := some [9], offset := 4, length := none,
        pin_uv_auth_param := none, pin_uv_auth_protocol := none } =
      some { result := .error .CTAP1_ERR_INVALID_SEQ, lb := lbMid,
             store := storeC } :=
  ⟨rfl, by decide, by decide,
    claim_c4 hashC pinC storeC lbMid _ [9] rfl rfl (by decide) (by decide)
      (by decide)⟩

/-- C6, counterexample: the set call with an empty fragment at offset 0
declaring total length 0 passes every check that precedes the finalize step
(fragment bound, declared length present, sequencing, no PIN enrolled,
total-length bound), reaches the finalize step with an accumulated buffer of
length 0 < 16, and the index computation
buffer.len() - TRUNCATED_HASH_LEN underflows: process_command panics
(modelled by the none outcome) instead of completing. -/
theorem claim_c6_counterexample :
    processCommand hashC pinC storeC LargeBlobs.new
      { get := none, set := some [], offset := 0, length := some 0,
        pin_uv_auth_param := none, pin_uv_auth_protocol := none } = none := by
  decide

/-- C6, amended: provided every declared total length is at least the
16-byte checksum-tag length (which the outer command layer guarantees, per
the source comment that checks for offset and length are already done in
command parsing), a set call never reaches the finalize step with a buffer
shorter than the tag: whenever the call's declared length (the length
parameter at offset 0, the session's expected_length otherwise) is at least
TRUNCATED_HASH_LEN, process_command does not panic. -/
theorem claim_c6 (hash : List Nat → List Nat) (pin : PinProtocolV1)
    (store : PersistentStore) (lb : LargeBlobs)
    (p : AuthenticatorLargeBlobsParameters)
    (hlength : ∀ l, p.length = some l → TRUNCATED_HASH_LEN ≤ l)
    (hmid : lb.expected_next_offset ≠ 0 →
      TRUNCATED_HASH_LEN ≤ lb.expected_length) :
    processCommand hash pin store lb p ≠ none := by
  unfold processCommand
  cases hg : p.get with
  | some g =>
    dsimp only
    split <;> simp
  | none =>
    dsimp only
    cases hs : p.set with
    | none => simp
    | some fragment =>
      dsimp only
      unfold processSet
      split
      · simp
      · cases hinit : sessionInit lb p.offset p.length with
        | error e => simp
        | ok lb1 =>
          dsimp only
          by_cases hseq : p.offset ≠ lb1.expected_next_offset
          · rw [if_pos hseq]
            simp
          · rw [if_neg hseq]
            cases hauth : authCheck hash pin store p.pin_uv_auth_param
                p.pin_uv_auth_protocol p.offset fragment with
            | error e => simp
            | ok u =>
              dsimp only
              split
              · simp
              · refine finalize_ne_none hash store _ ?_ rfl
                by_cases hz : p.offset = 0
                · unfold sessionInit at hinit
                  rw [if_pos hz] at hinit
                  cases hl : p.length with
                  | none =>
                    rw [hl] at hinit
                    exact absurd hinit (by simp)
                  | some l =>
                    rw [hl] at hinit
                    dsimp only at hinit
                    have hlb1 :
                        lb1 = { lb with expected_length := l, expected_next_offset := 0 } :=
                      (Except.ok.inj hinit).symm
                    left
                    rw [hlb1]
                    exact hlength l hl
                · unfold sessionInit at hinit
                  rw [if_neg hz] at hinit
                  have hlb1 : lb1 = lb := (Except.ok.inj hinit).symm
                  have heq : p.offset = lb.expected_next_offset := by
                    rw [← hlb1]
                    exact not_ne_iff.mp hseq
                  left
                  rw [hlb1]
                  exact hmid fun h0 => hz (heq.trans h0)

theorem claim_c6_witness :
    (∀ l, ({ get := none, set := some (List.replicate 20 1), offset := 0,
               length := some 20, pin_uv_auth_param := none,
               pin_uv_auth_protocol := none :
               AuthenticatorLargeBlobsParameters }).length = some l →
      TRUNCATED_HASH_LEN ≤ l) ∧
    (LargeBlobs.new.expected_next_offset ≠ 0 →
      TRUNCATED_HASH_LEN ≤ LargeBlobs.new.expected_length) ∧
    processCommand hashC pinC storeC LargeBlobs.new
      { get := none, set := some (List.replicate 20 1), offset := 0,
        length := some 20, pin_uv_auth_param := none,
        pin_uv_auth_protocol := none } ≠ none :=
  ⟨by decide, by decide,
    claim_c6 hashC pinC storeC LargeBlobs.new _ (by decide) (by decide)⟩

theorem authCheck_skipped (hash : List Nat → List Nat) (pin : PinProtocolV1)
    (store : PersistentStore) (tokenOpt : Option (List Nat))
    (protocolOpt : Option Nat) (off : Nat) (fragment : List Nat)
    (henr : store.pinEnrolled = false) :
    authCheck hash pin store tokenOpt protocolOpt off fragment = .ok () := by
  unfold authCheck
  rw [henr]
  rfl

theorem authCheck_enrolled_none (hash : List Nat → List Nat)
    (pin : PinProtocolV1) (store : PersistentStore)
    (protocolOpt : Option Nat) (off : Nat) (fragment : List Nat)
    (henr : store.pinEnrolled = true) :
    authCheck hash pin store none protocolOpt off fragment =
      .error .CTAP2_ERR_PUAT_REQUIRED := by
  unfold authCheck
  rw [henr]
  rfl

theorem authCheck_enrolled_some (hash : List Nat → List Nat)
    (pin : PinProtocolV1) (store : PersistentStore) (token : List Nat)
    (protocolOpt : Option Nat) (off : Nat) (fragment : List Nat)
    (henr : store.pinEnrolled = true) :
    authCheck hash pin store (some token) protocolOpt off fragment =
      match check_pin_uv_auth_protocol protocolOpt with
      | .error e => .error e
      | .ok _ =>
        if pin.hasLargeBlobWritePermission then
          if pin.verify_pin_auth_token (largeBlobMessage hash off fragment)
              token then .ok ()
          else .error .CTAP2_ERR_PIN_AUTH_INVALID
        else .error .permissionDenied := by
  unfold authCheck
  rw [henr]
  rfl

theorem authCheck_fails (hash : List Nat → List Nat) (pin : PinProtocolV1)
    (store : PersistentStore) (tokenOpt : Option (List Nat))
    (protocolOpt : Option Nat) (off : Nat) (fragment : List Nat)
    (henr : store.pinEnrolled = true)
    (hbad : tokenOpt = none ∨ ∀ token, tokenOpt = some token →
      pin.verify_pin_auth_token (largeBlobMessage hash off fragment) token =
        false) (u : Unit) :
    authCheck hash pin store tokenOpt protocolOpt off fragment ≠ .ok u := by
  cases htok : tokenOpt with
  | none =>
    rw [authCheck_enrolled_none hash pin store protocolOpt off fragment henr]
    exact fun hc => Except.noConfusion hc
  | some token =>
    rw [authCheck_enrolled_some hash pin store token protocolOpt off fragment
      henr]
    rcases hbad with hb | hb
    · rw [htok] at hb
      exact absurd hb (by simp)
    · have hv := hb token htok
      cases hpc : check_pin_uv_auth_protocol protocolOpt with
      | error e => exact fun hc => Except.noConfusion hc
      | ok v =>
        dsimp only
        by_cases hperm : pin.hasLargeBlobWritePermission = true
        · rw [if_pos hperm, hv, if_neg (by simp)]
          exact fun hc => Except.noConfusion hc
        · rw [if_neg hperm]
          exact fun hc => Except.noConfusion hc

theorem processSet_err_when_auth_fails (hash : List Nat → List Nat)
    (pin : PinProtocolV1) (store : PersistentStore) (lb : LargeBlobs)
    (fragment : List Nat) (off : Nat) (len : Option Nat)
    (tokenOpt : Option (List Nat)) (protocolOpt : Option Nat)
    (hauth : ∀ u, authCheck hash pin store tokenOpt protocolOpt off fragment ≠
      .ok u) :
    outcomeIsError
      (processSet hash pin store lb fragment off len tokenOpt protocolOpt) =
      true ∧
    outcomeStore
      (processSet hash pin store lb fragment off len tokenOpt protocolOpt) =
      some store := by
  unfold processSet
  split
  · exact ⟨rfl, rfl⟩
  · cases hinit : sessionInit lb off len with
    | error e => exact ⟨rfl, rfl⟩
    | ok lb1 =>
      dsimp only
      by_cases hseq2 : off ≠ lb1.expected_next_offset
      · rw [if_pos hseq2]
        exact ⟨rfl, rfl⟩
      · rw [if_neg hseq2]
        cases hac : authCheck hash pin store tokenOpt protocolOpt off
            fragment with
        | error e => exact ⟨rfl, rfl⟩
        | ok u => exact absurd hac (hauth u)

/-- C3: a set call made while a PIN/UV factor is enrolled whose auth token
parameter is absent, or whose token fails verification against the canonical
message, always returns an error and never reaches the storage commit (the
store is returned exactly as it was), regardless of the fragment's payload
or checksum validity.  Moreover, when the call passes the checks that
precede the authentication gate (fragment bound, declared length present at
offset 0, sequencing), the error is AuthTokenRequired when the parameter is
absent, and AuthInvalid when the token is present, the protocol check
passes, the write permission is held, and verification fails (when the
protocol or permission sub-checks fail instead, their own error is returned
and the commit is likewise never reached). -/
theorem claim_c3 (hash : List Nat → List Nat) (pin : PinProtocolV1)
    (store : PersistentStore) (lb : LargeBlobs)
    (p : AuthenticatorLargeBlobsParameters) (fragment : List Nat)
    (hget : p.get = none) (hset : p.set = some fragment)
    (henr : store.pinEnrolled = true)
    (hbad : p.pin_uv_auth_param = none ∨
      ∀ token, p.pin_uv_auth_param = some token →
        pin.verify_pin_auth_token (largeBlobMessage hash p.offset fragment)
          token = false) :
    outcomeIsError (processCommand hash pin store lb p) = true ∧
    outcomeStore (processCommand hash pin store lb p) = some store ∧
    (∀ L, (if p.offset = 0 then p.length else some lb.expected_length) =
        some L →
      p.offset = (if p.offset = 0 then 0 else lb.expected_next_offset) →
      fragment.length ≤ MAX_FRAGMENT_LENGTH →
      ((p.pin_uv_auth_param = none →
        outcomeError (processCommand hash pin store lb p) =
          some .CTAP2_ERR_PUAT_REQUIRED) ∧
       (∀ token, p.pin_uv_auth_param = some token →
        check_pin_uv_auth_protocol p.pin_uv_auth_protocol = .ok () →
        pin.hasLargeBlobWritePermission = true →
        outcomeError (processCommand hash pin store lb p) =
          some .CTAP2_ERR_PIN_AUTH_INVALID))) := by
  rw [processCommand_set_eq hash pin store lb p fragment hget hset]
  have herr := processSet_err_when_auth_fails hash pin store lb fragment
    p.offset p.length p.pin_uv_auth_param p.pin_uv_auth_protocol
    (authCheck_fails hash pin store p.pin_uv_auth_param
      p.pin_uv_auth_protocol p.offset fragment henr hbad)
  refine ⟨herr.1, herr.2, ?_⟩
  intro L hifL hseq2 hlen2
  have hinit := sessionInit_ok lb p.offset p.length L hifL
  constructor
  · intro hnone
    have hace : authCheck hash pin store p.pin_uv_auth_param
        p.pin_uv_auth_protocol p.offset fragment =
        .error .CTAP2_ERR_PUAT_REQUIRED := by
      rw [hnone]
      exact authCheck_enrolled_none hash pin store p.pin_uv_auth_protocol
        p.offset fragment henr
    rw [processSet_auth_error hash pin store lb _ fragment p.offset p.length
      p.pin_uv_auth_param p.pin_uv_auth_protocol _ hlen2 hinit hseq2 hace]
    rfl
  · intro token htok hpc hperm
    have hv : pin.verify_pin_auth_token
        (largeBlobMessage hash p.offset fragment) token = false := by
      rcases hbad with hb | hb
      · rw [htok] at hb
        exact absurd hb (by simp)
      · exact hb token htok
    have hace : authCheck hash pin store p.pin_uv_auth_param
        p.pin_uv_auth_protocol p.offset fragment =
        .error .CTAP2_ERR_PIN_AUTH_INVALID := by
      rw [htok, authCheck_enrolled_some hash pin store token
        p.pin_uv_auth_protocol p.offset fragment henr, hpc]
      dsimp only
      rw [if_pos hperm, hv]
      rfl
    rw [processSet_auth_error hash pin store lb _ fragment p.offset p.length
      p.pin_uv_auth_param p.pin_uv_auth_protocol _ hlen2 hinit hseq2 hace]
    rfl

theorem claim_c3_witness :
    storeP.pinEnrolled = true ∧
    outcomeIsError (processCommand hashC pinC storeP lbMid pC3) = true ∧
    outcomeStore (processCommand hashC pinC storeP lbMid pC3) = some storeP ∧
    outcomeError (processCommand hashC pinC storeP lbMid pC3) =
      some .CTAP2_ERR_PIN_AUTH_INVALID := by
  have h := claim_c3 hashC pinC storeP lbMid pC3 (List.replicate 10 3)
    rfl rfl rfl (Or.inr fun token _ => rfl)
  exact ⟨rfl, h.1, h.2.1,
    (h.2.2 20 (by decide) (by decide) (by decide)).2 [1, 2] rfl rfl rfl⟩

theorem check_pin_uv_auth_protocol_error_mem (protocolOpt : Option Nat)
    (e : Ctap2StatusCode)
    (h : check_pin_uv_auth_protocol protocolOpt = .error e) :
    e = .CTAP2_ERR_MISSING_PARAMETER ∨ e = .CTAP1_ERR_INVALID_PARAMETER := by
  unfold check_pin_uv_auth_protocol at h
  cases protocolOpt with
  | none =>
    dsimp only at h
    exact Or.inl (Except.error.inj h).symm
  | some v =>
    dsimp only at h
    by_cases hv : v = 1
    · rw [if_pos hv] at h
      exact absurd h (by simp)
    · rw [if_neg hv] at h
      exact Or.inr (Except.error.inj h).symm

theorem authCheck_error_mem (hash : List Nat → List Nat)
    (pin : PinProtocolV1) (store : PersistentStore)
    (tokenOpt : Option (List Nat)) (protocolOpt : Option Nat) (off : Nat)
    (fragment : List Nat) (e : Ctap2StatusCode)
    (h : authCheck hash pin store tokenOpt protocolOpt off fragment =
      .error e) :
    e = .CTAP2_ERR_PUAT_REQUIRED ∨ e = .CTAP2_ERR_MISSING_PARAMETER ∨
    e = .CTAP1_ERR_INVALID_PARAMETER ∨ e = .permissionDenied ∨
    e = .CTAP2_ERR_PIN_AUTH_INVALID := by
  by_cases henr : store.pinEnrolled = true
  · cases htok : tokenOpt with
    | none =>
      rw [htok, authCheck_enrolled_none hash pin store protocolOpt off
        fragment henr] at h
      exact Or.inl (Except.error.inj h).symm
    | some token =>
      rw [htok, authCheck_enrolled_some hash pin store token protocolOpt off
        fragment henr] at h
      cases hpc : check_pin_uv_auth_protocol protocolOpt with
      | error e2 =>
        rw [hpc] at h
        dsimp only at h
        rcases check_pin_uv_auth_protocol_error_mem protocolOpt e2 hpc with
          h2 | h2
        · exact Or.inr (Or.inl ((Except.error.inj h).symm.trans h2))
        · exact Or.inr (Or.inr (Or.inl ((Except.error.inj h).symm.trans h2)))
      | ok v =>
        rw [hpc] at h
        dsimp only at h
        by_cases hperm : pin.hasLargeBlobWritePermission = true
        · rw [if_pos hperm] at h
          by_cases hv : pin.verify_pin_auth_token
              (largeBlobMessage hash off fragment) token = true
          · rw [if_pos hv] at h
            exact absurd h (by simp)
          · rw [if_neg hv] at h
            exact Or.inr (Or.inr (Or.inr (Or.inr
              (Except.error.inj h).symm)))
        · rw [if_neg hperm] at h
          exact Or.inr (Or.inr (Or.inr (Or.inl (Except.error.inj h).symm)))
  · rw [authCheck_skipped hash pin store tokenOpt protocolOpt off fragment
      (Bool.not_eq_true store.pinEnrolled ▸ henr)] at h
    exact absurd h (by simp)

/-- C1: a set call that passes every earlier check (fragment bound, session
init, sequencing, authentication, total-length bound) and whose fragment
completes the declared total length L, where the first TRUNCATED_HASH_LEN
bytes of the hash of all but the trailing TRUNCATED_HASH_LEN bytes of the
accumulated buffer differ from those trailing bytes, returns
IntegrityFailure, discards the accumulated buffer (the session returns to
idle), and leaves the store, in particular the committed blob, untouched.
The hypotheses spell out the state of each earlier check: the declared total
for this call (the length parameter at offset 0, the session's
expected_length otherwise) is L, the offset matches the expected next offset
as re-initialized at offset 0, the session invariant ties the buffer length
to the offset, the authentication gate passes, and the buffer after
appending the fragment has length exactly L, at least one tag long (the
claim's phrase about the trailing 16 bytes presupposes the buffer has
them). -/
theorem claim_c1 (hash : List Nat → List Nat) (pin : PinProtocolV1)
    (store : PersistentStore) (lb : LargeBlobs)
    (p : AuthenticatorLargeBlobsParameters) (fragment : List Nat) (L : Nat)
    (hget : p.get = none) (hset : p.set = some fragment)
    (hlen : fragment.length ≤ MAX_FRAGMENT_LENGTH)
    (hL : (if p.offset = 0 then p.length else some lb.expected_length) =
      some L)
    (hseq : p.offset = if p.offset = 0 then 0 else lb.expected_next_offset)
    (hbuf : lb.buffer.length = lb.expected_next_offset)
    (hauth : authCheck hash pin store p.pin_uv_auth_param
      p.pin_uv_auth_protocol p.offset fragment = .ok ())
    (hcomplete :
      ((if p.offset = 0 then [] else lb.buffer) ++ fragment).length = L)
    (h16 : TRUNCATED_HASH_LEN ≤ L)
    (hmis : (hash (((if p.offset = 0 then [] else lb.buffer) ++
        fragment).take (L - TRUNCATED_HASH_LEN))).take TRUNCATED_HASH_LEN ≠
      ((if p.offset = 0 then [] else lb.buffer) ++ fragment).drop
        (L - TRUNCATED_HASH_LEN)) :
    processCommand hash pin store lb p =
      some { result := .error .CTAP2_ERR_INTEGRITY_FAILURE,
             lb := { buffer := [], expected_length := 0,
                     expected_next_offset := 0 },
             store := store } := by
  have hoffbuf :
      p.offset = (if p.offset = 0 then ([] : List Nat) else lb.buffer).length := by
    by_cases hz : p.offset = 0
    · rw [if_pos hz, hz]
      rfl
    · rw [if_neg hz]
      rw [if_neg hz] at hseq
      rw [hbuf, ← hseq]
  have hsum : p.offset + fragment.length = L := by
    rw [hoffbuf, ← List.length_append]
    exact hcomplete
  rw [processCommand_set_eq hash pin store lb p fragment hget hset]
  rw [processSet_checks_passed hash pin store lb _ fragment p.offset p.length
    p.pin_uv_auth_param p.pin_uv_auth_protocol hlen
    (sessionInit_ok lb p.offset p.length L hL) hseq hauth (le_of_eq hsum)]
  dsimp only
  refine finalize_mismatch hash store _ ?_ ?_ ?_
  · exact hcomplete
  · dsimp only
    rw [hcomplete]
    exact h16
  · dsimp only
    rw [hcomplete]
    exact hmis

theorem claim_c1_witness :
    (List.replicate 20 1).length ≤ MAX_FRAGMENT_LENGTH ∧
    authCheck hashC pinC storeC none none 0 (List.replicate 20 1) =
      .ok () ∧
    (hashC ((([] : List Nat) ++ List.replicate 20 1).take
        (20 - TRUNCATED_HASH_LEN))).take TRUNCATED_HASH_LEN ≠
      (([] : List Nat) ++ List.replicate 20 1).drop
        (20 - TRUNCATED_HASH_LEN) ∧
    processCommand hashC pinC storeC LargeBlobs.new
      { get := none, set := some (List.replicate 20 1), offset := 0,
        length := some 20, pin_uv_auth_param := none,
        pin_uv_auth_protocol := none } =
      some { result := .error .CTAP2_ERR_INTEGRITY_FAILURE,
             lb := { buffer := [], expected_length := 0,
                     expected_next_offset := 0 },
             store := storeC } :=
  ⟨by decide, rfl, by decide,
    claim_c1 hashC pinC storeC LargeBlobs.new _ (List.replicate 20 1) 20
      rfl rfl (by decide) (by decide) (by decide) (by decide) rfl
      (by decide) (by decide) (by decide)⟩

/-- C7: for a set call with a PIN/UV factor enrolled that passes the
fragment-length, declared-length and sequencing checks, whose fragment
satisfies offset + len(fragment) > L (the declared total for this call),
and whose authentication gate fails with error e, process_command returns
exactly e: the authentication checks are evaluated before the total-length
bound check, so the InvalidParameter of the bound check is never the
outcome; e is confined to the authentication-class errors AuthTokenRequired,
missing or unsupported protocol (the unsupported-protocol error is itself
reported as InvalidParameter, per the spec's naming), PermissionDenied, and
AuthInvalid. -/
theorem claim_c7 (hash : List Nat → List Nat) (pin : PinProtocolV1)
    (store : PersistentStore) (lb : LargeBlobs)
    (p : AuthenticatorLargeBlobsParameters) (fragment : List Nat) (L : Nat)
    (e : Ctap2StatusCode)
    (hget : p.get = none) (hset : p.set = some fragment)
    (hlen : fragment.length ≤ MAX_FRAGMENT_LENGTH)
    (hL : (if p.offset = 0 then p.length else some lb.expected_length) =
      some L)
    (hseq : p.offset = if p.offset = 0 then 0 else lb.expected_next_offset)
    (henr : store.pinEnrolled = true)
    (hover : p.offset + fragment.length > L)
    (hauth : authCheck hash pin store p.pin_uv_auth_param
      p.pin_uv_auth_protocol p.offset fragment = .error e) :
    processCommand hash pin store lb p =
      some { result := .error e,
             lb := { lb with expected_length := L, expected_next_offset := if p.offset = 0 then 0 else lb.expected_next_offset },
             store := store } ∧
    (e = .CTAP2_ERR_PUAT_REQUIRED ∨ e = .CTAP2_ERR_MISSING_PARAMETER ∨
     e = .CTAP1_ERR_INVALID_PARAMETER ∨ e = .permissionDenied ∨
     e = .CTAP2_ERR_PIN_AUTH_INVALID) := by
  constructor
  · rw [processCommand_set_eq hash pin store lb p fragment hget hset]
    exact processSet_auth_error hash pin store lb _ fragment p.offset
      p.length p.pin_uv_auth_param p.pin_uv_auth_protocol e hlen
      (sessionInit_ok lb p.offset p.length L hL) hseq hauth
  · exact authCheck_error_mem hash pin store p.pin_uv_auth_param
      p.pin_uv_auth_protocol p.offset fragment e hauth

theorem claim_c7_witness :
    storeP.pinEnrolled = true ∧
    pC7.offset + (List.replicate 5 1).length > 3 ∧
    authCheck hashC pinC storeP pC7.pin_uv_auth_param
      pC7.pin_uv_auth_protocol pC7.offset (List.replicate 5 1) =
      .error .CTAP2_ERR_PUAT_REQUIRED ∧
    (processCommand hashC pinC storeP LargeBlobs.new pC7 =
      some { result := .error .CTAP2_ERR_PUAT_REQUIRED,
             lb := { LargeBlobs.new with expected_length := 3, expected_next_offset := if pC7.offset = 0 then 0 else LargeBlobs.new.expected_next_offset },
             store := storeP } ∧
     (Ctap2StatusCode.CTAP2_ERR_PUAT_REQUIRED = .CTAP2_ERR_PUAT_REQUIRED ∨
      Ctap2StatusCode.CTAP2_ERR_PUAT_REQUIRED = .CTAP2_ERR_MISSING_PARAMETER ∨
      Ctap2StatusCode.CTAP2_ERR_PUAT_REQUIRED = .CTAP1_ERR_INVALID_PARAMETER ∨
      Ctap2StatusCode.CTAP2_ERR_PUAT_REQUIRED = .permissionDenied ∨
      Ctap2StatusCode.CTAP2_ERR_PUAT_REQUIRED =
        .CTAP2_ERR_PIN_AUTH_INVALID)) :=
  ⟨rfl, by decide, rfl,
    claim_c7 hashC pinC storeP LargeBlobs.new pC7 (List.replicate 5 1) 3
      .CTAP2_ERR_PUAT_REQUIRED rfl rfl (by decide) (by decide) (by decide)
      rfl (by decide) rfl⟩

/-- C8: for every set call that reaches token verification (PIN factor
enrolled, token present, protocol check passed, write permission held,
after the fragment-length, declared-length and sequencing checks), the
canonical message the token is verified against is exactly 32 bytes of
0xFF, then the 2-byte command-identification tag [0x0C, 0x00], then the
4-byte little-endian offset, then the hash digest of the fragment: when the
verifier rejects the token at that exact message the call fails with
AuthInvalid, and the outcome of process_command depends on the verifier
only through its value at that exact message and token (any verifier
agreeing there, with the same permission bit, yields the identical
outcome). -/
theorem claim_c8 (hash : List Nat → List Nat) (pin : PinProtocolV1)
    (store : PersistentStore) (lb : LargeBlobs)
    (p : AuthenticatorLargeBlobsParameters) (fragment : List Nat) (L : Nat)
    (token : List Nat)
    (hget : p.get = none) (hset : p.set = some fragment)
    (hlen : fragment.length ≤ MAX_FRAGMENT_LENGTH)
    (hL : (if p.offset = 0 then p.length else some lb.expected_length) =
      some L)
    (hseq : p.offset = if p.offset = 0 then 0 else lb.expected_next_offset)
    (henr : store.pinEnrolled = true)
    (htok : p.pin_uv_auth_param = some token)
    (hproto : check_pin_uv_auth_protocol p.pin_uv_auth_protocol = .ok ())
    (hperm : pin.hasLargeBlobWritePermission = true) :
    (pin.verify_pin_auth_token
        (List.replicate 32 0xFF ++ [0x0C, 0x00] ++ leBytes4 p.offset ++
          hash fragment) token = false →
      processCommand hash pin store lb p =
        some { result := .error .CTAP2_ERR_PIN_AUTH_INVALID,
               lb := { lb with expected_length := L, expected_next_offset := if p.offset = 0 then 0 else lb.expected_next_offset },
               store := store }) ∧
    (∀ pin2 : PinProtocolV1,
      pin2.hasLargeBlobWritePermission = true →
      pin2.verify_pin_auth_token
          (List.replicate 32 0xFF ++ [0x0C, 0x00] ++ leBytes4 p.offset ++
            hash fragment) token =
        pin.verify_pin_auth_token
          (List.replicate 32 0xFF ++ [0x0C, 0x00] ++ leBytes4 p.offset ++
            hash fragment) token →
      processCommand hash pin2 store lb p =
        processCommand hash pin store lb p) := by
  have hmsg : largeBlobMessage hash p.offset fragment =
      List.replicate 32 0xFF ++ [0x0C, 0x00] ++ leBytes4 p.offset ++
        hash fragment := rfl
  constructor
  · intro hv
    have hace : authCheck hash pin store p.pin_uv_auth_param
        p.pin_uv_auth_protocol p.offset fragment =
        .error .CTAP2_ERR_PIN_AUTH_INVALID := by
      rw [htok, authCheck_enrolled_some hash pin store token
        p.pin_uv_auth_protocol p.offset fragment henr, hproto]
      dsimp only
      rw [if_pos hperm, hmsg, hv]
      rfl
    rw [processCommand_set_eq hash pin store lb p fragment hget hset]
    exact processSet_auth_error hash pin store lb _ fragment p.offset
      p.length p.pin_uv_auth_param p.pin_uv_auth_protocol _ hlen
      (sessionInit_ok lb p.offset p.length L hL) hseq hace
  · intro pin2 hperm2 hveq
    have hac : authCheck hash pin2 store p.pin_uv_auth_param
        p.pin_uv_auth_protocol p.offset fragment =
        authCheck hash pin store p.pin_uv_auth_param
          p.pin_uv_auth_protocol p.offset fragment := by
      rw [htok, authCheck_enrolled_some hash pin2 store token
        p.pin_uv_auth_protocol p.offset fragment henr,
        authCheck_enrolled_some hash pin store token
        p.pin_uv_auth_protocol p.offset fragment henr, hproto]
      dsimp only
      rw [if_pos hperm2, if_pos hperm, hmsg, hveq]
    rw [processCommand_set_eq hash pin2 store lb p fragment hget hset,
      processCommand_set_eq hash pin store lb p fragment hget hset]
    unfold processSet
    rw [hac]

theorem claim_c8_witness :
    storeP.pinEnrolled = true ∧
    pC3.pin_uv_auth_param = some [1, 2] ∧
    pinC.verify_pin_auth_token
      (List.replicate 32 0xFF ++ [0x0C, 0x00] ++ leBytes4 pC3.offset ++
        hashC (List.replicate 10 3)) [1, 2] = false ∧
    processCommand hashC pinC storeP lbMid pC3 =
      some { result := .error .CTAP2_ERR_PIN_AUTH_INVALID,
             lb := { lbMid with expected_length := 20, expected_next_offset := if pC3.offset = 0 then 0 else lbMid.expected_next_offset },
             store := storeP } :=
  ⟨rfl, rfl, rfl,
    (claim_c8 hashC pinC storeP lbMid pC3 (List.replicate 10 3) 20 [1, 2]
      rfl rfl (by decide) (by decide) (by decide) rfl rfl rfl rfl).1 rfl⟩

theorem processCommand_get_eval (hash : List Nat → List Nat)
    (pin : PinProtocolV1) (store : PersistentStore) (lb : LargeBlobs)
    (g off : Nat) (hg : g ≤ MAX_FRAGMENT_LENGTH) :
    processCommand hash pin store lb
      { get := some g, set := none, offset := off, length := none,
        pin_uv_auth_param := none, pin_uv_auth_protocol := none } =
      some { result := .ok (.AuthenticatorLargeBlobs
               (some ((store.largeBlobArray.drop off).take g))),
             lb := lb, store := store } := by
  unfold processCommand
  dsimp only
  rw [if_neg (by omega)]
  rfl

theorem readBack_take (hash : List Nat → List Nat) (pin : PinProtocolV1)
    (store : PersistentStore) :
    ∀ (ns : List Nat) (off : Nat), (∀ n ∈ ns, n ≤ MAX_FRAGMENT_LENGTH) →
    readBack hash pin store off ns =
      some ((store.largeBlobArray.drop off).take ns.sum) := by
  intro ns
  induction ns with
  | nil =>
    intro off h
    simp [readBack]
  | cons n ns ih =>
    intro off h
    have hn : n ≤ MAX_FRAGMENT_LENGTH := h n (List.mem_cons_self n ns)
    simp only [readBack]
    rw [processCommand_get_eval hash pin store LargeBlobs.new n off hn]
    dsimp only
    rw [ih (off + n) (fun m hm => h m (List.mem_cons_of_mem n hm))]
    dsimp only
    have hdd : store.largeBlobArray.drop (off + n) =
        (store.largeBlobArray.drop off).drop n := by
      rw [List.drop_drop, Nat.add_comm]
    rw [hdd, List.sum_cons, List.take_add]

theorem runSets_cont (hash : List Nat → List Nat) (pin : PinProtocolV1)
    (store : PersistentStore) (B : List Nat)
    (hpin : store.pinEnrolled = false) (hcom : store.commitOk = true)
    (hBlen : TRUNCATED_HASH_LEN ≤ B.length)
    (hchk : (hash (B.take (B.length - TRUNCATED_HASH_LEN))).take
        TRUNCATED_HASH_LEN = B.drop (B.length - TRUNCATED_HASH_LEN)) :
    ∀ (fs : List (List Nat)) (pre : List Nat),
      pre ++ fs.join = B → 0 < pre.length →
      (∀ f ∈ fs, f ≠ [] ∧ f.length ≤ MAX_FRAGMENT_LENGTH) →
      fs ≠ [] →
      runSets hash pin (fragmentCalls B.length pre.length fs) store
        { buffer := pre, expected_length := B.length,
          expected_next_offset := pre.length } =
      some (List.replicate fs.length (.ok (.AuthenticatorLargeBlobs none)),
            { store with largeBlobArray := B }, LargeBlobs.new) := by
  intro fs
  induction fs with
  | nil =>
    intro pre _ _ _ hne
    exact absurd rfl hne
  | cons f fs ih =>
    intro pre hjoin hpre hfr _
    have hf := hfr f (List.mem_cons_self f fs)
    have hjoin2 : (pre ++ f) ++ fs.join = B := by
      have hfj : (f :: fs).join = f ++ fs.join := rfl
      rw [← hjoin, hfj, ← List.append_assoc]
    have hlenB : pre.length + f.length + fs.join.length = B.length := by
      rw [← hjoin2]
      simp [List.length_append]
      omega
    simp only [fragmentCalls]
    rw [if_neg (by omega)]
    simp only [runSets]
    rw [processCommand_set_eq hash pin store _ _ f rfl rfl]
    dsimp only
    rw [processSet_checks_passed hash pin store
      { buffer := pre, expected_length := B.length,
        expected_next_offset := pre.length }
      { buffer := pre, expected_length := B.length,
        expected_next_offset := pre.length }
      f pre.length none none none hf.2
      (sessionInit_nonzero _ pre.length none (by omega))
      rfl
      (authCheck_skipped hash pin store none none pre.length f hpin)
      (by dsimp only; omega)]
    rw [if_neg (by omega)]
    dsimp only
    cases fs with
    | nil =>
      have hpf : pre ++ f = B := by simpa using hjoin2
      rw [finalize_commit hash store _ (by dsimp only; rw [hpf])
        (by dsimp only; rw [hpf]; exact hBlen)
        (by dsimp only; rw [hpf]; exact hchk) hcom]
      dsimp only
      rw [hpf]
      rfl
    | cons g gs =>
      have hg := hfr g (List.mem_cons_of_mem f (List.mem_cons_self g gs))
      have hgj : (g :: gs).join = g ++ gs.join := rfl
      have hglen : 0 < (g :: gs).join.length := by
        rw [hgj]
        have := List.length_pos.mpr hg.1
        simp [List.length_append]
        omega
      have hlenB2 : pre.length + f.length + (g :: gs).join.length =
          B.length := hlenB
      rw [finalize_nonfinal hash store _
        (by dsimp only; rw [List.length_append]; omega)]
      dsimp only
      have hoff : pre.length + f.length = (pre ++ f).length :=
        (List.length_append pre f).symm
      rw [hoff]
      rw [ih (pre ++ f) hjoin2
        (by rw [List.length_append]; omega)
        (fun x hx => hfr x (List.mem_cons_of_mem f hx)) (by simp)]
      dsimp only
      simp [List.replicate_succ]

theorem sessionInit_cases (lb : LargeBlobs) (off : Nat) (len : Option Nat)
    (lb1 : LargeBlobs) (h : sessionInit lb off len = .ok lb1) :
    lb1 = lb ∨ lb1.expected_next_offset = 0 := by
  unfold sessionInit at h
  by_cases hz : off = 0
  · rw [if_pos hz] at h
    cases hl : len with
    | none =>
      rw [hl] at h
      exact absurd h (by simp)
    | some l =>
      rw [hl] at h
      dsimp only at h
      right
      rw [← Except.ok.inj h]
  · rw [if_neg hz] at h
    exact Or.inl (Except.ok.inj h).symm

theorem finalize_state_P (hash : List Nat → List Nat)
    (store : PersistentStore) (lb2 : LargeBlobs) (r : CallResult)
    (hbuf : lb2.buffer.length = lb2.expected_next_offset)
    (h : finalizeAndCommit hash store lb2 = some r) :
    r.lb.expected_next_offset = r.lb.buffer.length ∨
    r.lb.expected_next_offset = 0 := by
  unfold finalizeAndCommit at h
  split at h
  · split at h
    · exact absurd h (by simp)
    · dsimp only at h
      split at h
      · have h2 := Option.some.inj h
        subst h2
        exact Or.inr rfl
      · split at h
        · have h2 := Option.some.inj h
          subst h2
          exact Or.inr rfl
        · have h2 := Option.some.inj h
          subst h2
          exact Or.inr rfl
  · have h2 := Option.some.inj h
    subst h2
    exact Or.inl hbuf.symm

/-- C5, counterexample: the reachable two-call run pC5a then pC5b from the
idle session ends, after the second call returns InvalidParameter, in a
state whose expected_next_offset (0) differs from the length of the
accumulated buffer (10): the offset-0 reset of lines 84-86 precedes the
total-length bound check, and a failure of that check leaves the stale
buffer with the reset offset. -/
theorem claim_c5_counterexample :
    runSets hashC pinC [pC5a, pC5b] storeC LargeBlobs.new =
      some ([.ok (.AuthenticatorLargeBlobs none),
             .error .CTAP1_ERR_INVALID_PARAMETER], storeC, lbC5) ∧
    lbC5.expected_next_offset ≠ lbC5.buffer.length := by
  constructor
  · decide
  · decide

/-- C5, amended: the invariant weakens to a disjunction: after every
non-panicking call, expected_next_offset equals the length of the
accumulated buffer or expected_next_offset is 0 (the latter with a possibly
stale buffer, after a set call at offset 0 that failed a post-reset check
or a finalize whose commit failed); the disjunction is preserved by every
call from any state satisfying it, in particular from idle. -/
theorem claim_c5 (hash : List Nat → List Nat) (pin : PinProtocolV1)
    (store : PersistentStore) (lb : LargeBlobs)
    (p : AuthenticatorLargeBlobsParameters) (r : CallResult)
    (hP : lb.expected_next_offset = lb.buffer.length ∨
      lb.expected_next_offset = 0)
    (hr : processCommand hash pin store lb p = some r) :
    r.lb.expected_next_offset = r.lb.buffer.length ∨
    r.lb.expected_next_offset = 0 := by
  have hPlb1 : ∀ lb1, sessionInit lb p.offset p.length = .ok lb1 →
      (lb1.expected_next_offset = lb1.buffer.length ∨
       lb1.expected_next_offset = 0) := by
    intro lb1 h1
    rcases sessionInit_cases lb p.offset p.length lb1 h1 with h2 | h2
    · rw [h2]
      exact hP
    · exact Or.inr h2
  unfold processCommand at hr
  cases hg : p.get with
  | some g =>
    rw [hg] at hr
    dsimp only at hr
    split at hr
    · have h2 := Option.some.inj hr
      subst h2
      exact hP
    · have h2 := Option.some.inj hr
      subst h2
      exact hP
  | none =>
    rw [hg] at hr
    dsimp only at hr
    cases hs : p.set with
    | none =>
      rw [hs] at hr
      dsimp only at hr
      have h2 := Option.some.inj hr
      subst h2
      exact hP
    | some fragment =>
      rw [hs] at hr
      dsimp only at hr
      unfold processSet at hr
      split at hr
      · have h2 := Option.some.inj hr
        subst h2
        exact hP
      · cases hinit : sessionInit lb p.offset p.length with
        | error e =>
          rw [hinit] at hr
          dsimp only at hr
          have h2 := Option.some.inj hr
          subst h2
          exact hP
        | ok lb1 =>
          rw [hinit] at hr
          dsimp only at hr
          have hPl := hPlb1 lb1 hinit
          split at hr
          · have h2 := Option.some.inj hr
            subst h2
            exact hPl
          · cases hac : authCheck hash pin store p.pin_uv_auth_param
                p.pin_uv_auth_protocol p.offset fragment with
            | error e =>
              rw [hac] at hr
              dsimp only at hr
              have h2 := Option.some.inj hr
              subst h2
              exact hPl
            | ok u =>
              rw [hac] at hr
              dsimp only at hr
              split at hr
              · have h2 := Option.some.inj hr
                subst h2
                exact hPl
              · exact finalize_state_P hash store _ r rfl hr

theorem claim_c5_witness :
    (LargeBlobs.new.expected_next_offset = LargeBlobs.new.buffer.length ∨
      LargeBlobs.new.expected_next_offset = 0) ∧
    processCommand hashC pinC storeC LargeBlobs.new pC5a =
      some { result := .ok (.AuthenticatorLargeBlobs none), lb := lbMid,
             store := storeC } ∧
    (lbMid.expected_next_offset = lbMid.buffer.length ∨
      lbMid.expected_next_offset = 0) :=
  ⟨by decide, by decide,
    claim_c5 hashC pinC storeC LargeBlobs.new pC5a
      { result := .ok (.AuthenticatorLargeBlobs none), lb := lbMid,
        store := storeC } (by decide) (by decide)⟩

/-- C2: round-trip.  For every blob B of length at least the 16-byte tag
whose trailing 16 bytes equal the first 16 bytes of the hash of its
preceding bytes, and every split of B into ordered, contiguous,
non-overlapping, nonempty fragments each at most MAX_FRAGMENT_LENGTH
(= MAX_MSG_SIZE - 64), starting from an idle session with no PIN factor
enrolled (and a store whose commit succeeds), issuing the set calls in
order, with the declared length len(B) exactly on the offset-0 call, makes
every call succeed, the final call commits B as the new large blob array
and returns the session to idle, and any sequence of get calls tiling the
committed blob (each request within the fragment bound, total at least
len(B)) reads back exactly B. -/
theorem claim_c2 (hash : List Nat → List Nat) (pin : PinProtocolV1)
    (store : PersistentStore) (B : List Nat)
    (fragments : List (List Nat))
    (hpin : store.pinEnrolled = false) (hcom : store.commitOk = true)
    (hBlen : TRUNCATED_HASH_LEN ≤ B.length)
    (hchk : (hash (B.take (B.length - TRUNCATED_HASH_LEN))).take
        TRUNCATED_HASH_LEN = B.drop (B.length - TRUNCATED_HASH_LEN))
    (hjoin : fragments.join = B)
    (hne : fragments ≠ [])
    (hfr : ∀ f ∈ fragments, f ≠ [] ∧ f.length ≤ MAX_FRAGMENT_LENGTH) :
    runSets hash pin (fragmentCalls B.length 0 fragments) store
        LargeBlobs.new =
      some (List.replicate fragments.length
              (.ok (.AuthenticatorLargeBlobs none)),
            { store with largeBlobArray := B }, LargeBlobs.new) ∧
    (∀ ns : List Nat, (∀ n ∈ ns, n ≤ MAX_FRAGMENT_LENGTH) →
      B.length ≤ ns.sum →
      readBack hash pin { store with largeBlobArray := B } 0 ns = some B) := by
  constructor
  · cases fragments with
    | nil => exact absurd rfl hne
    | cons f fs =>
      have hf := hfr f (List.mem_cons_self f fs)
      have hjoin2 : f ++ fs.join = B := by
        rw [← hjoin]
        rfl
      have hlenB : f.length + fs.join.length = B.length := by
        rw [← hjoin2]
        simp [List.length_append]
      simp only [fragmentCalls]
      rw [if_pos trivial]
      simp only [runSets]
      rw [processCommand_set_eq hash pin store _ _ f rfl rfl]
      dsimp only
      rw [processSet_checks_passed hash pin store LargeBlobs.new
        { buffer := [], expected_length := B.length,
          expected_next_offset := 0 }
        f 0 (some B.length) none none hf.2
        (sessionInit_zero LargeBlobs.new B.length)
        rfl
        (authCheck_skipped hash pin store none none 0 f hpin)
        (by dsimp only; omega)]
      rw [if_pos rfl]
      simp only [List.nil_append]
      cases fs with
      | nil =>
        have hpf : f = B := by simpa using hjoin2
        rw [finalize_commit hash store _ (by dsimp only; rw [hpf])
          (by dsimp only; rw [hpf]; exact hBlen)
          (by dsimp only; rw [hpf]; exact hchk) hcom]
        dsimp only
        rw [hpf]
        rfl
      | cons g gs =>
        have hg := hfr g (List.mem_cons_of_mem f (List.mem_cons_self g gs))
        have hgj : (g :: gs).join = g ++ gs.join := rfl
        have hglen : 0 < (g :: gs).join.length := by
          rw [hgj]
          have := List.length_pos.mpr hg.1
          simp [List.length_append]
          omega
        rw [finalize_nonfinal hash store _
          (by dsimp only; omega)]
        dsimp only
        rw [Nat.zero_add]
        rw [runSets_cont hash pin store B hpin hcom hBlen hchk (g :: gs) f
          hjoin2 (List.length_pos.mpr hf.1)
          (fun x hx => hfr x (List.mem_cons_of_mem f hx)) (by simp)]
        dsimp only
        simp [List.replicate_succ]
  · intro ns hns hsum
    rw [readBack_take hash pin _ ns 0 hns]
    dsimp only
    rw [List.drop_zero, List.take_of_length_le hsum]

theorem claim_c2_witness :
    storeC.pinEnrolled = false ∧ storeC.commitOk = true ∧
    TRUNCATED_HASH_LEN ≤ blobC.length ∧
    (hashC (blobC.take (blobC.length - TRUNCATED_HASH_LEN))).take
        TRUNCATED_HASH_LEN = blobC.drop (blobC.length - TRUNCATED_HASH_LEN) ∧
    fragsC.join = blobC ∧
    (∀ f ∈ fragsC, f ≠ [] ∧ f.length ≤ MAX_FRAGMENT_LENGTH) ∧
    runSets hashC pinC (fragmentCalls blobC.length 0 fragsC) storeC
        LargeBlobs.new =
      some (List.replicate fragsC.length
              (.ok (.AuthenticatorLargeBlobs none)),
            { storeC with largeBlobArray := blobC }, LargeBlobs.new) ∧
    readBack hashC pinC { storeC with largeBlobArray := blobC } 0 [20] =
      some blobC :=
  ⟨rfl, rfl, by decide, by decide, by decide, by decide,
    (claim_c2 hashC pinC storeC blobC fragsC rfl rfl (by decide) (by decide)
      (by decide) (by decide) (by decide)).1,
    (claim_c2 hashC pinC storeC blobC fragsC rfl rfl (by decide) (by decide)
      (by decide) (by decide) (by decide)).2 [20] (by decide) (by decide)⟩
